import Mathlib

/-!
Verification of the HyprAgent-Protocol (HyprCAT) server and SDK against its
natural-language specification.  Each section shallowly embeds the TypeScript
code relevant to one group of claims: pure functions become Lean functions,
stateful services become explicit state passing, maps become association
lists, fallible code returns `Except`/`Option`, and external builtins
(HMAC, regular-expression engines, wall clocks) become explicit parameters.
-/

/-- Model of `String.prototype.startsWith`. -/
def strStarts (pre s : String) : Bool :=
  pre.data.isPrefixOf s.data

/-- JSON-like values, modelling the `unknown` payloads flowing through the
protocol layer.  JS `undefined` is modelled as an absent key (an `Option`
at the lookup site); `null` is a value. -/
inductive JVal where
  | null
  | bool (b : Bool)
  | num (q : Rat)
  | str (s : String)
  | arr (elems : List JVal)
  | obj (fields : List (String × JVal))

/-- Model of `Map.get`: first binding for the key, if any. -/
def lookupKey (k : String) : List (String × α) → Option α
  | [] => none
  | (k', v) :: rest => if k' = k then some v else lookupKey k rest

/-- Model of `Map.delete`: remove every binding for the key. -/
def eraseKey (k : String) (l : List (String × α)) : List (String × α) :=
  l.filter (fun p => p.1 ≠ k)

theorem lookupKey_eraseKey (k : String) (l : List (String × α)) :
    lookupKey k (eraseKey k l) = none := by
  induction l with
  | nil => rfl
  | cons p rest ih =>
    by_cases h : p.1 = k
    · simpa [eraseKey, h] using ih
    · simpa [eraseKey, lookupKey, h] using ih

namespace Auth

/-! Embedding of `packages/server/src/crypto.ts` (DID-Auth challenge part).
The module-level `pendingChallenges : Map<string, AuthChallenge>` becomes an
association list threaded through the functions; `Date` values become
millisecond counts; the Node HMAC builtin becomes a function parameter. -/

structure AuthChallenge where
  nonce : String
  domain : String
  issuedAt : Nat
  expiresAt : Nat
  deriving Repr, DecidableEq

/-- Embedding of `verifyAuthResponse(did, signature, nonce)` from
`crypto.ts` lines 107–137.  `hmacHex key payload` models
`crypto.createHmac("sha256", key).update(payload).digest("hex")`;
`now` models `new Date()`.  Returns the boolean result together with the
pending-challenge map after the call. -/
def verifyAuthResponse (hmacHex : String → String → String)
    (pending : List (String × AuthChallenge))
    (did signature nonce : String) (now : Nat) :
    Bool × List (String × AuthChallenge) :=
  match lookupKey nonce pending with
  | none => (false, pending)
  | some challenge =>
    if challenge.expiresAt < now then
      (false, eraseKey nonce pending)
    else
      let challengePayload := did ++ ":" ++ nonce ++ ":" ++ challenge.domain
      let expectedSig := hmacHex did challengePayload
      let isValid := signature == expectedSig || "simulated-sig-".data.isPrefixOf signature.data
      if isValid then
        (true, eraseKey nonce pending)
      else
        (false, pending)

/-- C2: once a challenge nonce verifies successfully, the pending entry is
deleted, so a second `verifyAuthResponse` with the same (did, signature,
nonce) triple returns `false` at any later time. -/
theorem verify_auth_replay_rejected (hmacHex : String → String → String)
    (pending : List (String × AuthChallenge))
    (did signature nonce : String) (now now' : Nat)
    (h : (verifyAuthResponse hmacHex pending did signature nonce now).1 = true) :
    (verifyAuthResponse hmacHex
      (verifyAuthResponse hmacHex pending did signature nonce now).2
      did signature nonce now').1 = false := by
  unfold verifyAuthResponse at h ⊢
  cases hc : lookupKey nonce pending with
  | none => simp [hc] at h
  | some challenge =>
    simp only [hc] at h ⊢
    by_cases hexp : challenge.expiresAt < now
    · simp [hexp] at h
    · simp only [hexp, if_false] at h ⊢
      cases hv : (signature == hmacHex did (did ++ ":" ++ nonce ++ ":" ++ challenge.domain) ||
          "simulated-sig-".data.isPrefixOf signature.data) with
      | false => simp [hv] at h
      | true => simp [hv, lookupKey_eraseKey]

/-- Witness for C2's theorem at a concrete state: a pending challenge
verified with a simulated-prefix signature, then replayed. -/
theorem verify_auth_replay_rejected_witness :
    (verifyAuthResponse (fun _ _ => "") [("n0", ⟨"n0", "example.com", 0, 300000⟩)]
      "did:key:z1" "simulated-sig-abc" "n0" 10).1 = true ∧
    (verifyAuthResponse (fun _ _ => "")
      (verifyAuthResponse (fun _ _ => "") [("n0", ⟨"n0", "example.com", 0, 300000⟩)]
        "did:key:z1" "simulated-sig-abc" "n0" 10).2
      "did:key:z1" "simulated-sig-abc" "n0" 20).1 = false := by
  refine ⟨by decide, ?_⟩
  exact verify_auth_replay_rejected (fun _ _ => "") _ _ _ _ 10 20 (by decide)

end Auth

namespace FileStore

/-! Embedding of the file storage backend (`iriToFilename` and the decoding
step of `FileStorage.listResources`).  JS strings are modelled at the level
of their UTF-8 byte sequences (`List Nat`, each element < 256):
`encodeURIComponent` percent-encodes every byte outside the ECMA-262
unreserved set, and `decodeURIComponent` inverts the percent escapes. -/

/-- ECMA-262 `uriUnescaped` set: ALPHA / DIGIT / - _ . ! ~ * ' ( ). -/
def isUnreservedByte (b : Nat) : Bool :=
  (65 ≤ b && b ≤ 90) || (97 ≤ b && b ≤ 122) || (48 ≤ b && b ≤ 57) ||
  b == 45 || b == 95 || b == 46 || b == 33 || b == 126 ||
  b == 42 || b == 39 || b == 40 || b == 41

/-- Uppercase hex digit (as an ASCII code) for a value below 16,
as produced by `encodeURIComponent`. -/
def hexDigit (n : Nat) : Nat :=
  if n < 10 then 48 + n else 55 + n

/-- Value of an ASCII hex-digit byte, as accepted by `decodeURIComponent`. -/
def hexVal (b : Nat) : Option Nat :=
  if 48 ≤ b ∧ b ≤ 57 then some (b - 48)
  else if 65 ≤ b ∧ b ≤ 70 then some (b - 55)
  else if 97 ≤ b ∧ b ≤ 102 then some (b - 87)
  else none

/-- Byte-level model of `encodeURIComponent`. -/
def encodeURIComponentBytes : List Nat → List Nat
  | [] => []
  | b :: rest =>
    if isUnreservedByte b then b :: encodeURIComponentBytes rest
    else 37 :: hexDigit (b / 16) :: hexDigit (b % 16) :: encodeURIComponentBytes rest

/-- Model of `.replace(/%/g, "_")`. -/
def percentToUnderscore (l : List Nat) : List Nat :=
  l.map (fun b => if b = 37 then 95 else b)

/-- Model of `.replace(/_/g, "%")` performed in `listResources`. -/
def underscoreToPercent (l : List Nat) : List Nat :=
  l.map (fun b => if b = 95 then 37 else b)

/-- Embedding of `iriToFilename` from the file storage backend:
`encodeURIComponent(iri).replace(/%/g, "_")`. -/
def iriToFilename (iri : List Nat) : List Nat :=
  percentToUnderscore (encodeURIComponentBytes iri)

/-- Byte-level model of `decodeURIComponent`; `none` models the `URIError`
thrown on a malformed percent escape. -/
def decodeURIComponentBytes : List Nat → Option (List Nat)
  | [] => some []
  | b :: rest =>
    if b = 37 then
      match rest with
      | h1 :: h2 :: rest2 =>
        match hexVal h1, hexVal h2, decodeURIComponentBytes rest2 with
        | some x, some y, some tail => some ((16 * x + y) :: tail)
        | _, _, _ => none
      | _ => none
    else
      (decodeURIComponentBytes rest).map (fun t => b :: t)

/-- Embedding of the per-filename decoding in `FileStorage.listResources`:
`decodeURIComponent(f.replace(/_/g, "%"))` (the `.json` suffix handling is
symmetric and elided). -/
def filenameToIri (f : List Nat) : Option (List Nat) :=
  decodeURIComponentBytes (underscoreToPercent f)

theorem hexVal_hexDigit {n : Nat} (h : n < 16) : hexVal (hexDigit n) = some n := by
  interval_cases n <;> rfl

theorem isUnreservedByte_ne_percent {b : Nat} (h : isUnreservedByte b = true) : b ≠ 37 := by
  rintro rfl
  exact absurd h (by decide)

theorem hexDigit_lt {n : Nat} (h : n < 16) : hexDigit n < 71 := by
  unfold hexDigit
  split <;> omega

/-- Every byte of the encoded form is either the percent marker, a hex
digit (< 71), or an unreserved byte coming from the input. -/
theorem mem_encode (l : List Nat) (hb : ∀ b ∈ l, b < 256) :
    ∀ c ∈ encodeURIComponentBytes l, c = 37 ∨ c < 71 ∨ c ∈ l := by
  induction l with
  | nil => intro c hc; cases hc
  | cons b rest ih =>
    intro c hc
    have hbrest : ∀ x ∈ rest, x < 256 := fun x hx => hb x (List.mem_cons_of_mem b hx)
    have hb256 : b < 256 := hb b (List.mem_cons_self b rest)
    unfold encodeURIComponentBytes at hc
    by_cases hu : isUnreservedByte b = true
    · rw [if_pos hu] at hc
      rcases List.mem_cons.mp hc with rfl | hc'
      · exact Or.inr (Or.inr (List.mem_cons_self c rest))
      · rcases ih hbrest c hc' with h | h | h
        · exact Or.inl h
        · exact Or.inr (Or.inl h)
        · exact Or.inr (Or.inr (List.mem_cons_of_mem b h))
    · rw [if_neg hu] at hc
      have hdiv : b / 16 < 16 := by omega
      have hmod : b % 16 < 16 := Nat.mod_lt b (by omega)
      rcases List.mem_cons.mp hc with rfl | hc'
      · exact Or.inl rfl
      rcases List.mem_cons.mp hc' with rfl | hc''
      · exact Or.inr (Or.inl (hexDigit_lt hdiv))
      rcases List.mem_cons.mp hc'' with rfl | hc3
      · exact Or.inr (Or.inl (hexDigit_lt hmod))
      · rcases ih hbrest c hc3 with h | h | h
        · exact Or.inl h
        · exact Or.inr (Or.inl h)
        · exact Or.inr (Or.inr (List.mem_cons_of_mem b h))

/-- Replacing `%` by `_` and back is the identity on lists without a
literal underscore byte. -/
theorem underscore_percent_inverse (l : List Nat) (h : ∀ b ∈ l, b ≠ 95) :
    underscoreToPercent (percentToUnderscore l) = l := by
  induction l with
  | nil => rfl
  | cons b rest ih =>
    have hb : b ≠ 95 := h b (List.mem_cons_self b rest)
    have hrest := ih (fun x hx => h x (List.mem_cons_of_mem b hx))
    unfold underscoreToPercent percentToUnderscore at *
    simp only [List.map_cons, List.map_map] at *
    by_cases h37 : b = 37
    · subst h37
      simp [hrest]
    · simp [h37, hb, hrest]

/-- Percent-decoding inverts percent-encoding on byte lists. -/
theorem decode_encode (l : List Nat) (hb : ∀ b ∈ l, b < 256) :
    decodeURIComponentBytes (encodeURIComponentBytes l) = some l := by
  induction l with
  | nil => rfl
  | cons b rest ih =>
    have hbrest : ∀ x ∈ rest, x < 256 := fun x hx => hb x (List.mem_cons_of_mem b hx)
    have hb256 : b < 256 := hb b (List.mem_cons_self b rest)
    unfold encodeURIComponentBytes
    by_cases hu : isUnreservedByte b = true
    · rw [if_pos hu]
      unfold decodeURIComponentBytes
      rw [if_neg (isUnreservedByte_ne_percent hu)]
      rw [ih hbrest]
      rfl
    · rw [if_neg hu]
      unfold decodeURIComponentBytes
      rw [if_pos rfl]
      have hdiv : b / 16 < 16 := by omega
      have hmod : b % 16 < 16 := Nat.mod_lt b (by omega)
      dsimp only
      rw [hexVal_hexDigit hdiv, hexVal_hexDigit hmod, ih hbrest]
      dsimp only
      have : 16 * (b / 16) + b % 16 = b := by omega
      rw [this]

/-- C9 (amended): for every resource id whose bytes contain no literal
underscore, the filename encoding of `iriToFilename` is inverted by the
decoding performed in `listResources`, so `put(id, r)` followed by
`list()` yields the id back. -/
theorem filename_roundTrip (id : List Nat) (hb : ∀ b ∈ id, b < 256)
    (hund : 95 ∉ id) : filenameToIri (iriToFilename id) = some id := by
  unfold filenameToIri iriToFilename
  rw [underscore_percent_inverse, decode_encode id hb]
  intro c hc
  rcases mem_encode id hb c hc with rfl | h | h
  · decide
  · omega
  · exact fun hc95 => hund (hc95 ▸ h)

/-- Witness for C9's amended theorem: the id "a:/b" (bytes 97 58 47 98,
with `:` and `/` percent-encoded) survives the round trip. -/
theorem filename_roundTrip_witness :
    filenameToIri (iriToFilename [97, 58, 47, 98]) = some [97, 58, 47, 98] :=
  filename_roundTrip [97, 58, 47, 98] (by decide) (by decide)

/-- C9 counterexample: the id "a_41" (bytes 97 95 52 49) contains an
underscore; its filename decodes to "aA" (bytes 97 65), not to the
original id, so the encoding is not inverted for every id. -/
theorem filename_roundTrip_counterexample :
    filenameToIri (iriToFilename [97, 95, 52, 49]) = some [97, 65] ∧
    filenameToIri (iriToFilename [97, 95, 52, 49]) ≠ some [97, 95, 52, 49] := by
  refine ⟨by decide, ?_⟩
  intro h
  simpa using h.symm.trans (by decide : filenameToIri (iriToFilename [97, 95, 52, 49]) = some [97, 65])

end FileStore

namespace Ops

/-! Embedding of `getOperations` from
`packages/protocol/src/schemas/hyprcat-context.ts` lines 386–399.
A resource node is an association list of attribute name to `JVal`. -/

/-- Embedding of `getOperations(node)`: return the direct
`hydra:operation` attribute when it is an array; otherwise fold in the
operation arrays nested under the elements of `hydra:member`. -/
def getOperations (node : List (String × JVal)) : List JVal :=
  match lookupKey "hydra:operation" node with
  | some (JVal.arr ops) => ops
  | _ =>
    match lookupKey "hydra:member" node with
    | some (JVal.arr members) =>
      members.flatMap (fun m =>
        match m with
        | JVal.obj fields =>
          match lookupKey "hydra:operation" fields with
          | some (JVal.arr ops) => ops
          | _ => []
        | _ => [])
    | _ => []

/-- C7 (amended): `getOperations` returns exactly the direct
`hydra:operation` array when the resource has one, and only when the
direct attribute is not an array does it fold in the operations nested
under `hydra:member[*].hydra:operation` — it never returns the union of
the two. -/
theorem getOperations_direct_or_members (node : List (String × JVal)) :
    (∀ ops : List JVal, lookupKey "hydra:operation" node = some (JVal.arr ops) →
      getOperations node = ops) ∧
    ((∀ ops : List JVal, lookupKey "hydra:operation" node ≠ some (JVal.arr ops)) →
      ∀ members : List JVal, lookupKey "hydra:member" node = some (JVal.arr members) →
      ∀ fields : List (String × JVal), JVal.obj fields ∈ members →
      ∀ ops : List JVal, lookupKey "hydra:operation" fields = some (JVal.arr ops) →
      ∀ op ∈ ops, op ∈ getOperations node) := by
  constructor
  · intro ops hops
    unfold getOperations
    rw [hops]
  · intro hdirect members hmem fields hfield ops hops op hop
    have helem : op ∈ (match JVal.obj fields with
        | JVal.obj fields =>
          match lookupKey "hydra:operation" fields with
          | some (JVal.arr ops) => ops
          | _ => []
        | _ => []) := by
      dsimp only
      rw [hops]
      exact hop
    unfold getOperations
    cases hd : lookupKey "hydra:operation" node with
    | some v =>
      cases v <;>
        first
          | exact absurd hd (hdirect _)
          | (dsimp only; rw [hmem]; exact List.mem_flatMap.mpr ⟨JVal.obj fields, hfield, helem⟩)
    | none =>
      dsimp only
      rw [hmem]
      exact List.mem_flatMap.mpr ⟨JVal.obj fields, hfield, helem⟩

/-- Witness for C7's amended theorem: a resource with a direct operation
returns it, and a collection without a direct array exposes its member's
operation. -/
theorem getOperations_direct_or_members_witness :
    getOperations [("hydra:operation", JVal.arr [JVal.str "opA"])] = [JVal.str "opA"] ∧
    JVal.str "opB" ∈ getOperations
      [("hydra:member", JVal.arr [JVal.obj [("hydra:operation", JVal.arr [JVal.str "opB"])]])] := by
  constructor
  · exact (getOperations_direct_or_members _).1 [JVal.str "opA"] rfl
  · exact (getOperations_direct_or_members
        [("hydra:member", JVal.arr [JVal.obj [("hydra:operation", JVal.arr [JVal.str "opB"])]])]).2
      (by intro ops h; simp [lookupKey] at h)
      [JVal.obj [("hydra:operation", JVal.arr [JVal.str "opB"])]] rfl
      [("hydra:operation", JVal.arr [JVal.str "opB"])] (List.mem_singleton.mpr rfl)
      [JVal.str "opB"] rfl (JVal.str "opB") (List.mem_singleton.mpr rfl)

/-- C7 counterexample: a resource carrying both a direct
`hydra:operation` array (operation "opA") and a member with a nested
operation ("opB") yields only the direct array: the nested operation is
not in the result, so the result is not the union. -/
theorem getOperations_not_union :
    getOperations [("hydra:operation", JVal.arr [JVal.str "opA"]),
        ("hydra:member", JVal.arr [JVal.obj [("hydra:operation", JVal.arr [JVal.str "opB"])]])] =
      [JVal.str "opA"] ∧
    JVal.str "opB" ∉ getOperations [("hydra:operation", JVal.arr [JVal.str "opA"]),
        ("hydra:member", JVal.arr [JVal.obj [("hydra:operation", JVal.arr [JVal.str "opB"])]])] := by
  refine ⟨rfl, ?_⟩
  intro h
  rw [show getOperations [("hydra:operation", JVal.arr [JVal.str "opA"]),
      ("hydra:member", JVal.arr [JVal.obj [("hydra:operation", JVal.arr [JVal.str "opB"])]])] =
      [JVal.str "opA"] from rfl] at h
  simp at h

end Ops

namespace Valid

/-! Embedding of `validateInput` / `validateShaclDatatype` from
`packages/protocol/src/schemas/hyprcat-context.ts` lines 237–348.
The `RegExp.test` and `Date.parse` builtins become function parameters;
error messages (string interpolations) are elided, keeping path and code. -/

structure HydraSupportedProperty where
  property : String
  title : Option String
  required : Bool
  datatype : Option String
  minLength : Option Rat
  maxLength : Option Rat
  minInclusive : Option Rat
  maxInclusive : Option Rat
  pattern : Option String
  inSet : Option (List JVal)

structure ValidationError where
  path : String
  code : String
  deriving Repr, DecidableEq

/-- Model of the SameValueZero comparison used by `Array.prototype.includes`
for the `sh:in` check; distinct object/array literals are never equal. -/
def jsIncludesEq : JVal → JVal → Bool
  | JVal.null, JVal.null => true
  | JVal.bool a, JVal.bool b => a == b
  | JVal.num a, JVal.num b => a == b
  | JVal.str a, JVal.str b => a == b
  | _, _ => false

/-- Embedding of `validateShaclDatatype(value, datatype)`;
`Number.isInteger` becomes a denominator-1 test on the rational model of
JS numbers, and `Date.parse` is the `dateParseOk` parameter. -/
def validateShaclDatatype (dateParseOk : String → Bool) (value : JVal)
    (datatype : String) : Bool :=
  match datatype with
  | "xsd:string" =>
    match value with | JVal.str _ => true | _ => false
  | "xsd:integer" =>
    match value with | JVal.num q => q.den == 1 | _ => false
  | "xsd:decimal" | "xsd:float" | "xsd:double" =>
    match value with | JVal.num _ => true | _ => false
  | "xsd:boolean" =>
    match value with | JVal.bool _ => true | _ => false
  | "xsd:dateTime" =>
    match value with | JVal.str s => dateParseOk s | _ => false
  | "xsd:anyURI" =>
    match value with
    | JVal.str s => strStarts "http" s || strStarts "urn:" s || strStarts "did:" s
    | _ => false
  | _ => true

/-- Model of `value === undefined || value === null || value === ""`
(the required-property absence test). -/
def isAbsentVal : Option JVal → Bool
  | none => true
  | some JVal.null => true
  | some (JVal.str "") => true
  | _ => false

/-- Model of `value === null` (JS `undefined` is the `none` lookup). -/
def isNullVal : JVal → Bool
  | JVal.null => true
  | _ => false

/-- Datatype clause of the constraint checks (`sh:datatype`). -/
def datatypeErrs (dateParseOk : String → Bool) (prop : HydraSupportedProperty)
    (v : JVal) : List ValidationError :=
  match prop.datatype with
  | some dt =>
    if validateShaclDatatype dateParseOk v dt then []
    else [⟨prop.property, "SHACL_VIOLATION"⟩]
  | none => []

/-- Clause `sh:minLength` (applies to string values only). -/
def minLengthErrs (prop : HydraSupportedProperty) (v : JVal) : List ValidationError :=
  match prop.minLength, v with
  | some m, JVal.str s =>
    if (s.length : Rat) < m then [⟨prop.property, "SHACL_VIOLATION"⟩] else []
  | _, _ => []

/-- Clause `sh:maxLength`. -/
def maxLengthErrs (prop : HydraSupportedProperty) (v : JVal) : List ValidationError :=
  match prop.maxLength, v with
  | some m, JVal.str s =>
    if m < (s.length : Rat) then [⟨prop.property, "SHACL_VIOLATION"⟩] else []
  | _, _ => []

/-- Clause `sh:minInclusive` (applies to number values only). -/
def minInclusiveErrs (prop : HydraSupportedProperty) (v : JVal) : List ValidationError :=
  match prop.minInclusive, v with
  | some m, JVal.num q =>
    if q < m then [⟨prop.property, "SHACL_VIOLATION"⟩] else []
  | _, _ => []

/-- Clause `sh:maxInclusive`. -/
def maxInclusiveErrs (prop : HydraSupportedProperty) (v : JVal) : List ValidationError :=
  match prop.maxInclusive, v with
  | some m, JVal.num q =>
    if m < q then [⟨prop.property, "SHACL_VIOLATION"⟩] else []
  | _, _ => []

/-- Clause `sh:pattern` (the `RegExp` engine is the parameter). -/
def patternErrs (regexTest : String → String → Bool)
    (prop : HydraSupportedProperty) (v : JVal) : List ValidationError :=
  match prop.pattern, v with
  | some p, JVal.str s =>
    if regexTest p s then [] else [⟨prop.property, "SHACL_VIOLATION"⟩]
  | _, _ => []

/-- Clause `sh:in`. -/
def inSetErrs (prop : HydraSupportedProperty) (v : JVal) : List ValidationError :=
  match prop.inSet with
  | some vals =>
    if vals.any (fun x => jsIncludesEq x v) then []
    else [⟨prop.property, "SHACL_VIOLATION"⟩]
  | none => []

/-- The SHACL-lite constraint checks of `validateInput`, in source order. -/
def constraintErrs (regexTest : String → String → Bool) (dateParseOk : String → Bool)
    (prop : HydraSupportedProperty) (v : JVal) : List ValidationError :=
  datatypeErrs dateParseOk prop v ++ minLengthErrs prop v ++ maxLengthErrs prop v ++
  minInclusiveErrs prop v ++ maxInclusiveErrs prop v ++
  patternErrs regexTest prop v ++ inSetErrs prop v

/-- Per-shape body of the `for (const prop of properties)` loop of
`validateInput`: required check (with `continue`), missing-optional
short-circuit, then the constraint checks. -/
def checkProp (regexTest : String → String → Bool) (dateParseOk : String → Bool)
    (input : List (String × JVal)) (prop : HydraSupportedProperty) :
    List ValidationError :=
  let value := lookupKey prop.property input
  if prop.required && isAbsentVal value then
    [⟨prop.property, "MISSING_REQUIRED_PROPERTY"⟩]
  else
    match value with
    | none => []
    | some v =>
      if isNullVal v then []
      else constraintErrs regexTest dateParseOk prop v

/-- Embedding of `validateInput(input, properties)`: the loop accumulates
the per-shape errors in order. -/
def validateInput (regexTest : String → String → Bool) (dateParseOk : String → Bool)
    (input : List (String × JVal)) (props : List HydraSupportedProperty) :
    List ValidationError :=
  props.flatMap (checkProp regexTest dateParseOk input)

/-- C6 (amended): `validateInput` reports each absent required property
with code `MISSING_REQUIRED_PROPERTY`, and every constraint violation —
including a `sh:datatype` mismatch — with code `SHACL_VIOLATION`
(datatype mismatches are not reported as `INVALID_PROPERTY_TYPE`). -/
theorem validateInput_error_codes (regexTest : String → String → Bool)
    (dateParseOk : String → Bool) (input : List (String × JVal))
    (props : List HydraSupportedProperty) (prop : HydraSupportedProperty)
    (hmem : prop ∈ props) :
    (prop.required = true → isAbsentVal (lookupKey prop.property input) = true →
      (⟨prop.property, "MISSING_REQUIRED_PROPERTY"⟩ : ValidationError) ∈
        validateInput regexTest dateParseOk input props) ∧
    (∀ v, lookupKey prop.property input = some v → isNullVal v = false →
      (prop.required && isAbsentVal (some v)) = false →
      (∀ dt, prop.datatype = some dt →
        validateShaclDatatype dateParseOk v dt = false →
        (⟨prop.property, "SHACL_VIOLATION"⟩ : ValidationError) ∈
          validateInput regexTest dateParseOk input props) ∧
      (∀ m s, prop.minLength = some m → v = JVal.str s → (s.length : Rat) < m →
        (⟨prop.property, "SHACL_VIOLATION"⟩ : ValidationError) ∈
          validateInput regexTest dateParseOk input props) ∧
      (∀ m s, prop.maxLength = some m → v = JVal.str s → m < (s.length : Rat) →
        (⟨prop.property, "SHACL_VIOLATION"⟩ : ValidationError) ∈
          validateInput regexTest dateParseOk input props) ∧
      (∀ m q, prop.minInclusive = some m → v = JVal.num q → q < m →
        (⟨prop.property, "SHACL_VIOLATION"⟩ : ValidationError) ∈
          validateInput regexTest dateParseOk input props) ∧
      (∀ m q, prop.maxInclusive = some m → v = JVal.num q → m < q →
        (⟨prop.property, "SHACL_VIOLATION"⟩ : ValidationError) ∈
          validateInput regexTest dateParseOk input props) ∧
      (∀ p s, prop.pattern = some p → v = JVal.str s → regexTest p s = false →
        (⟨prop.property, "SHACL_VIOLATION"⟩ : ValidationError) ∈
          validateInput regexTest dateParseOk input props) ∧
      (∀ vals, prop.inSet = some vals →
        vals.any (fun x => jsIncludesEq x v) = false →
        (⟨prop.property, "SHACL_VIOLATION"⟩ : ValidationError) ∈
          validateInput regexTest dateParseOk input props)) := by
  have hsub : ∀ e, e ∈ checkProp regexTest dateParseOk input prop →
      e ∈ validateInput regexTest dateParseOk input props := by
    intro e he
    exact List.mem_flatMap.mpr ⟨prop, hmem, he⟩
  constructor
  · intro hr habs
    apply hsub
    unfold checkProp
    simp only [hr, habs, Bool.and_self, if_true]
    exact List.mem_singleton.mpr rfl
  · intro v hv hnull hno
    have base : ∀ e, e ∈ constraintErrs regexTest dateParseOk prop v →
        e ∈ validateInput regexTest dateParseOk input props := by
      intro e he
      apply hsub
      unfold checkProp
      simp only [hv, hno, Bool.false_eq_true, if_false, hnull]
      exact he
    refine ⟨?_, ?_, ?_, ?_, ?_, ?_, ?_⟩
    · intro dt hdt hbad
      apply base
      unfold constraintErrs
      refine List.mem_append.mpr (Or.inl (List.mem_append.mpr (Or.inl
        (List.mem_append.mpr (Or.inl (List.mem_append.mpr (Or.inl
        (List.mem_append.mpr (Or.inl (List.mem_append.mpr (Or.inl ?_)))))))))))
      simp [datatypeErrs, hdt, hbad]
    · intro m s hm hs hlt
      subst hs
      apply base
      unfold constraintErrs
      refine List.mem_append.mpr (Or.inl (List.mem_append.mpr (Or.inl
        (List.mem_append.mpr (Or.inl (List.mem_append.mpr (Or.inl
        (List.mem_append.mpr (Or.inl (List.mem_append.mpr (Or.inr ?_)))))))))))
      simp [minLengthErrs, hm, hlt]
    · intro m s hm hs hlt
      subst hs
      apply base
      unfold constraintErrs
      refine List.mem_append.mpr (Or.inl (List.mem_append.mpr (Or.inl
        (List.mem_append.mpr (Or.inl (List.mem_append.mpr (Or.inl
        (List.mem_append.mpr (Or.inr ?_)))))))))
      simp [maxLengthErrs, hm, hlt]
    · intro m q hm hq hlt
      subst hq
      apply base
      unfold constraintErrs
      refine List.mem_append.mpr (Or.inl (List.mem_append.mpr (Or.inl
        (List.mem_append.mpr (Or.inl (List.mem_append.mpr (Or.inr ?_)))))))
      simp [minInclusiveErrs, hm, hlt]
    · intro m q hm hq hlt
      subst hq
      apply base
      unfold constraintErrs
      refine List.mem_append.mpr (Or.inl (List.mem_append.mpr (Or.inl
        (List.mem_append.mpr (Or.inr ?_)))))
      simp [maxInclusiveErrs, hm, hlt]
    · intro p s hp hs hbad
      subst hs
      apply base
      unfold constraintErrs
      refine List.mem_append.mpr (Or.inl (List.mem_append.mpr (Or.inr ?_)))
      simp [patternErrs, hp, hbad]
    · intro vals hvals hbad
      apply base
      unfold constraintErrs
      refine List.mem_append.mpr (Or.inr ?_)
      simp [inSetErrs, hvals, hbad]

/-- Witness for C6's amended theorem: a required name that is absent and a
price below its `sh:minInclusive` produce `MISSING_REQUIRED_PROPERTY`
and `SHACL_VIOLATION` respectively. -/
theorem validateInput_error_codes_witness :
    (⟨"schema:name", "MISSING_REQUIRED_PROPERTY"⟩ : ValidationError) ∈
      validateInput (fun _ _ => true) (fun _ => true)
        [("schema:price", JVal.num (-1))]
        [⟨"schema:name", none, true, none, none, none, none, none, none, none⟩,
         ⟨"schema:price", none, false, none, none, none, some 0, none, none, none⟩] ∧
    (⟨"schema:price", "SHACL_VIOLATION"⟩ : ValidationError) ∈
      validateInput (fun _ _ => true) (fun _ => true)
        [("schema:price", JVal.num (-1))]
        [⟨"schema:name", none, true, none, none, none, none, none, none, none⟩,
         ⟨"schema:price", none, false, none, none, none, some 0, none, none, none⟩] := by
  constructor
  · exact (validateInput_error_codes (fun _ _ => true) (fun _ => true)
      [("schema:price", JVal.num (-1))]
      [⟨"schema:name", none, true, none, none, none, none, none, none, none⟩,
       ⟨"schema:price", none, false, none, none, none, some 0, none, none, none⟩]
      ⟨"schema:name", none, true, none, none, none, none, none, none, none⟩
      (List.mem_cons_self _ _)).1 rfl rfl
  · exact ((validateInput_error_codes (fun _ _ => true) (fun _ => true)
      [("schema:price", JVal.num (-1))]
      [⟨"schema:name", none, true, none, none, none, none, none, none, none⟩,
       ⟨"schema:price", none, false, none, none, none, some 0, none, none, none⟩]
      ⟨"schema:price", none, false, none, none, none, some 0, none, none, none⟩
      (List.mem_cons_of_mem _ (List.mem_cons_self _ _))).2 (JVal.num (-1))
      rfl rfl rfl).2.2.2.1 0 (-1) rfl rfl (by norm_num)

/-- C6 counterexample: a `sh:datatype xsd:integer` shape applied to the
string "foo" yields code `SHACL_VIOLATION`, not the claimed
`INVALID_PROPERTY_TYPE`. -/
theorem validateInput_datatype_code_counterexample :
    validateInput (fun _ _ => true) (fun _ => true) [("p", JVal.str "foo")]
      [⟨"p", none, false, some "xsd:integer", none, none, none, none, none, none⟩] =
      [⟨"p", "SHACL_VIOLATION"⟩] ∧
    (⟨"p", "INVALID_PROPERTY_TYPE"⟩ : ValidationError) ∉
      validateInput (fun _ _ => true) (fun _ => true) [("p", JVal.str "foo")]
        [⟨"p", none, false, some "xsd:integer", none, none, none, none, none, none⟩] := by
  constructor
  · rfl
  · intro h
    rw [show validateInput (fun _ _ => true) (fun _ => true) [("p", JVal.str "foo")]
      [⟨"p", none, false, some "xsd:integer", none, none, none, none, none, none⟩] =
      [⟨"p", "SHACL_VIOLATION"⟩] from rfl] at h
    simp at h

end Valid

namespace Payment

/-! Embedding of the two `PaymentService.processPayment` variants of
`packages/server/src/services/federation.ts` (the simple implementation at
lines 308–342 and the full x402 implementation at lines 448–504), together
with `verifyPaymentProof` from `crypto.ts`.  JS numbers become `Rat`;
`crypto.randomUUID()` becomes the `freshId` parameter; `Date` values become
millisecond counts; thrown errors become `Except.error` carrying the
storage state at the time of the throw. -/

/-- Insert-or-overwrite for the map model. -/
def setKey (k : String) (v : α) (l : List (String × α)) : List (String × α) :=
  (k, v) :: eraseKey k l

theorem lookupKey_setKey (k : String) (v : α) (l : List (String × α)) :
    lookupKey k (setKey k v l) = some v := by
  simp [setKey, lookupKey]

structure WalletState where
  balances : List (String × Rat)
  tokens : List (String × Rat)
  deriving Repr, DecidableEq

structure PaymentInvoice where
  invoiceId : String
  amount : Rat
  currency : String
  recipient : String
  expiresAt : Nat
  deriving Repr, DecidableEq

/-- Receipt shape of the full x402 implementation. -/
structure PaymentReceipt where
  id : String
  invoiceId : String
  payerDid : String
  amount : Rat
  currency : String
  recipient : String
  proof : String
  status : String
  createdAt : Nat
  deriving Repr, DecidableEq

/-- Receipt shape of the simple implementation. -/
structure PaymentReceiptSimple where
  id : String
  amount : Rat
  currency : String
  payer : String
  recipient : String
  status : String
  deriving Repr, DecidableEq

/-- Service state: pending invoices, the storage wallet map, receipts. -/
structure PayState where
  pendingInvoices : List (String × PaymentInvoice)
  wallets : List (String × WalletState)
  receipts : List (String × PaymentReceipt)
  receiptsSimple : List (String × PaymentReceiptSimple)
  deriving Repr, DecidableEq

/-- The `Error` messages thrown by the payment paths, as a sum type. -/
inductive PayError where
  | invalidProof
  | amountMismatch
  | invoiceExpired
  | insufficientFunds
  deriving Repr, DecidableEq

/-- Embedding of `verifyPaymentProof` from `crypto.ts` lines 186–194:
accepts any proof string of length at least 16. -/
def verifyPaymentProof (proof _invoiceId _payerDid : String) : Bool :=
  16 ≤ proof.length

/-- Embedding of the full x402 `processPayment` (federation.ts lines
448–504): proof verification, optional invoice matching and consumption,
balance check and debit, then a confirmed receipt. -/
def processPaymentFull (st : PayState) (freshId : String) (now : Nat)
    (payerDid : String) (amount : Rat) (currency recipient proof : String)
    (invoiceId : Option String) :
    Except (PayError × PayState) (PaymentReceipt × PayState) :=
  if verifyPaymentProof proof (invoiceId.getD "") payerDid = false then
    Except.error (PayError.invalidProof, st)
  else
    let afterInvoice : Except (PayError × PayState) PayState :=
      match invoiceId with
      | some iid =>
        match lookupKey iid st.pendingInvoices with
        | some invoice =>
          if invoice.amount ≠ amount then
            Except.error (PayError.amountMismatch, st)
          else if invoice.expiresAt < now then
            Except.error (PayError.invoiceExpired,
              { st with pendingInvoices := eraseKey iid st.pendingInvoices })
          else
            Except.ok { st with pendingInvoices := eraseKey iid st.pendingInvoices }
        | none => Except.ok st
      | none => Except.ok st
    match afterInvoice with
    | Except.error e => Except.error e
    | Except.ok st1 =>
      let afterWallet : Except (PayError × PayState) PayState :=
        match lookupKey payerDid st1.wallets with
        | some w =>
          let balance := (lookupKey currency w.balances).getD 0
          if balance < amount then
            Except.error (PayError.insufficientFunds, st1)
          else
            Except.ok { st1 with wallets :=
              (setKey payerDid { w with balances := setKey currency (balance - amount) w.balances }
                st1.wallets) }
        | none => Except.ok st1
      match afterWallet with
      | Except.error e => Except.error e
      | Except.ok st2 =>
        let receipt : PaymentReceipt :=
          { id := freshId, invoiceId := invoiceId.getD "direct", payerDid := payerDid,
            amount := amount, currency := currency, recipient := recipient,
            proof := proof, status := "confirmed", createdAt := now }
        Except.ok (receipt, { st2 with receipts := setKey freshId receipt st2.receipts })

/-- Embedding of the simple `processPayment` (federation.ts lines 308–342):
no invoice lookup, no balance check; the wallet, when present, is debited
unconditionally. -/
def processPaymentSimple (st : PayState) (freshId : String)
    (payerDid : String) (amount : Rat) (currency recipient proof : String) :
    Except (PayError × PayState) (PaymentReceiptSimple × PayState) :=
  if proof = "" ∨ proof.length < 10 then
    Except.error (PayError.invalidProof, st)
  else
    let receipt : PaymentReceiptSimple :=
      { id := freshId, amount := amount, currency := currency,
        payer := payerDid, recipient := recipient, status := "completed" }
    let st1 := { st with receiptsSimple := setKey freshId receipt st.receiptsSimple }
    match lookupKey payerDid st1.wallets with
    | some w =>
      let balance := (lookupKey currency w.balances).getD 0
      Except.ok (receipt, { st1 with wallets :=
        (setKey payerDid { w with balances := setKey currency (balance - amount) w.balances }
          st1.wallets) })
    | none => Except.ok (receipt, st1)

/-- C1 (amended, full x402 implementation): with a valid proof, no invoice
id, and an existing wallet record, if the payer's balance in the named
currency is below `amount` the call fails with the insufficient-funds
error and the state is unchanged; otherwise the balance decreases by
exactly `amount` and the resulting balance is non-negative. -/
theorem processPaymentFull_debit_spec (st : PayState) (freshId : String) (now : Nat)
    (payerDid : String) (amount : Rat) (currency recipient proof : String)
    (w : WalletState) (hw : lookupKey payerDid st.wallets = some w)
    (hproof : verifyPaymentProof proof "" payerDid = true) :
    ((lookupKey currency w.balances).getD 0 < amount →
      processPaymentFull st freshId now payerDid amount currency recipient proof none =
        Except.error (PayError.insufficientFunds, st)) ∧
    (amount ≤ (lookupKey currency w.balances).getD 0 →
      processPaymentFull st freshId now payerDid amount currency recipient proof none =
        Except.ok
          ({ id := freshId, invoiceId := "direct", payerDid := payerDid, amount := amount,
             currency := currency, recipient := recipient, proof := proof,
             status := "confirmed", createdAt := now },
           { st with
             wallets := (setKey payerDid
               { w with balances :=
                   (setKey currency ((lookupKey currency w.balances).getD 0 - amount)
                     w.balances) } st.wallets),
             receipts := (setKey freshId
               { id := freshId, invoiceId := "direct", payerDid := payerDid, amount := amount,
                 currency := currency, recipient := recipient, proof := proof,
                 status := "confirmed", createdAt := now } st.receipts) }) ∧
      0 ≤ (lookupKey currency w.balances).getD 0 - amount) := by
  constructor
  · intro hlt
    simp only [processPaymentFull, Option.getD_none, hproof, Bool.true_eq_false, if_false, hw]
    rw [if_pos hlt]
  · intro hge
    refine ⟨?_, by linarith⟩
    simp only [processPaymentFull, Option.getD_none, hproof, Bool.true_eq_false, if_false, hw]
    rw [if_neg (not_lt.mpr hge)]

/-- Witness for C1's amended theorem: a wallet holding 100 SAT debited by
30 leaves 70, and a debit of 200 fails with the insufficient-funds
error. -/
theorem processPaymentFull_debit_spec_witness :
    (processPaymentFull ⟨[], [("did:payer", ⟨[("SAT", 100)], []⟩)], [], []⟩
        "r1" 1000 "did:payer" 200 "SAT" "did:rec" "0123456789abcdef" none =
      Except.error (PayError.insufficientFunds,
        ⟨[], [("did:payer", ⟨[("SAT", 100)], []⟩)], [], []⟩)) ∧
    (processPaymentFull ⟨[], [("did:payer", ⟨[("SAT", 100)], []⟩)], [], []⟩
        "r1" 1000 "did:payer" 30 "SAT" "did:rec" "0123456789abcdef" none =
      Except.ok
        ({ id := "r1", invoiceId := "direct", payerDid := "did:payer", amount := 30,
           currency := "SAT", recipient := "did:rec", proof := "0123456789abcdef",
           status := "confirmed", createdAt := 1000 },
         ⟨[], [("did:payer", ⟨[("SAT", 70)], []⟩)],
          [("r1", { id := "r1", invoiceId := "direct", payerDid := "did:payer", amount := 30,
                    currency := "SAT", recipient := "did:rec", proof := "0123456789abcdef",
                    status := "confirmed", createdAt := 1000 })], []⟩)) := by
  constructor
  · exact (processPaymentFull_debit_spec ⟨[], [("did:payer", ⟨[("SAT", 100)], []⟩)], [], []⟩
      "r1" 1000 "did:payer" 200 "SAT" "did:rec"
      "0123456789abcdef" ⟨[("SAT", 100)], []⟩ rfl (by decide)).1
      (by norm_num [lookupKey])
  · have h := (processPaymentFull_debit_spec
      ⟨[], [("did:payer", ⟨[("SAT", 100)], []⟩)], [], []⟩ "r1" 1000 "did:payer" 30 "SAT"
      "did:rec" "0123456789abcdef" ⟨[("SAT", 100)], []⟩ rfl (by decide)).2
      (by norm_num [lookupKey])
    refine h.1.trans ?_
    norm_num [setKey, eraseKey, lookupKey]

/-- C1 counterexample: the simple `processPayment` implementation, with a
valid proof and a wallet holding 5 SAT, accepts a debit of 10 SAT: the
call succeeds (no insufficient-funds error) and the recorded balance is
-5, which is negative. -/
theorem processPaymentSimple_overdraft_counterexample :
    processPaymentSimple ⟨[], [("did:payer", ⟨[("SAT", 5)], []⟩)], [], []⟩
        "r1" "did:payer" 10 "SAT" "did:rec" "0123456789" =
      Except.ok (⟨"r1", 10, "SAT", "did:payer", "did:rec", "completed"⟩,
        ⟨[], [("did:payer", ⟨[("SAT", -5)], []⟩)], [],
         [("r1", ⟨"r1", 10, "SAT", "did:payer", "did:rec", "completed"⟩)]⟩) ∧
    (-5 : Rat) < 0 := by
  constructor
  · unfold processPaymentSimple
    rw [if_neg (by decide)]
    norm_num [setKey, eraseKey, lookupKey]
  · norm_num

/-- C10: the full x402 `processPayment` with no wallet record for the
payer and a proof of length at least 16 succeeds with a confirmed
receipt, leaving every wallet untouched. -/
theorem processPaymentFull_no_wallet (st : PayState) (freshId : String) (now : Nat)
    (payerDid : String) (amount : Rat) (currency recipient proof : String)
    (hw : lookupKey payerDid st.wallets = none)
    (hproof : 16 ≤ proof.length) :
    processPaymentFull st freshId now payerDid amount currency recipient proof none =
      Except.ok
        ({ id := freshId, invoiceId := "direct", payerDid := payerDid, amount := amount,
           currency := currency, recipient := recipient, proof := proof,
           status := "confirmed", createdAt := now },
         { st with receipts := (setKey freshId
             { id := freshId, invoiceId := "direct", payerDid := payerDid, amount := amount,
               currency := currency, recipient := recipient, proof := proof,
               status := "confirmed", createdAt := now } st.receipts) }) := by
  have hp : verifyPaymentProof proof "" payerDid = true := by
    simp [verifyPaymentProof, hproof]
  simp only [processPaymentFull, Option.getD_none, hp, Bool.true_eq_false, if_false, hw]

/-- Witness for C10's theorem: an unknown payer with an empty wallet map
gets a confirmed receipt and the wallet map stays empty. -/
theorem processPaymentFull_no_wallet_witness :
    processPaymentFull ⟨[], [], [], []⟩ "r9" 5 "did:unknown" 42 "USD" "did:rec"
        "0123456789abcdef" none =
      Except.ok
        ({ id := "r9", invoiceId := "direct", payerDid := "did:unknown", amount := 42,
           currency := "USD", recipient := "did:rec", proof := "0123456789abcdef",
           status := "confirmed", createdAt := 5 },
         ⟨[], [],
          [("r9", { id := "r9", invoiceId := "direct", payerDid := "did:unknown", amount := 42,
                    currency := "USD", recipient := "did:rec", proof := "0123456789abcdef",
                    status := "confirmed", createdAt := 5 })], []⟩) :=
  processPaymentFull_no_wallet ⟨[], [], [], []⟩ "r9" 5 "did:unknown" 42 "USD" "did:rec"
    "0123456789abcdef" rfl (by decide)

end Payment

namespace Prov

/-! Embedding of `ProvenanceTracker` from `packages/sdk/src/provenance.ts`
and of the server-side `ProvenanceService.recordActivity`.
`crypto.randomUUID()`-generated ids become `freshId` parameters,
`Date.now()` becomes a `now : Nat` parameter. -/

structure ProvEntitySnapshot where
  id : String
  label : String
  value : JVal
  timestamp : Nat
  url : Option String

structure ActivityDetails where
  actionType : String
  payload : List (String × JVal)
  strategy : String
  method : Option String
  targetUrl : Option String
  statusCode : Option Nat
  duration : Option Nat

structure ProvActivityRecord where
  id : String
  label : String
  details : ActivityDetails
  usedEntityId : String
  timestamp : Nat
  agentDid : String

inductive ProvItem where
  | entity (e : ProvEntitySnapshot)
  | activity (a : ProvActivityRecord)

structure ProvenanceChain where
  id : String
  agentDid : String
  startedAt : Nat
  items : List ProvItem
  sealedFlag : Bool

/-- State of a `ProvenanceTracker` instance: the chain plus the
`currentEntityId` pointer. -/
structure TrackerState where
  chain : ProvenanceChain
  currentEntityId : Option String

/-- Model of `extractLabel`: first truthy string among the four label
attributes (an empty string is falsy in JS and falls through). -/
def extractLabel (resource : JVal) : Option String :=
  let pick : String → Option String := fun k =>
    match resource with
    | JVal.obj fields =>
      match lookupKey k fields with
      | some (JVal.str s) => if s = "" then none else some s
      | _ => none
    | _ => none
  (pick "dct:title").orElse fun _ =>
    (pick "schema:name").orElse fun _ =>
      (pick "hydra:title").orElse fun _ => pick "rdfs:label"

/-- Model of the `@id` read used for the entity `url` field. -/
def resourceId (resource : JVal) : Option String :=
  match resource with
  | JVal.obj fields =>
    match lookupKey "@id" fields with
    | some (JVal.str s) => some s
    | _ => none
  | _ => none

/-- Embedding of the `ProvenanceTracker` constructor. -/
def initTracker (agentDid freshId : String) (now : Nat) : TrackerState :=
  { chain := { id := freshId, agentDid := agentDid, startedAt := now,
               items := [], sealedFlag := false },
    currentEntityId := none }

/-- Embedding of `recordEntity(resource, label?)`: push an entity snapshot
and advance the current-entity pointer.  Returns the new state and the
entity id. -/
def recordEntity (st : TrackerState) (freshId : String) (now : Nat)
    (resource : JVal) (label : Option String) : TrackerState × String :=
  let entity : ProvEntitySnapshot :=
    { id := freshId,
      label := (label.orElse fun _ => extractLabel resource).getD "Resource State",
      value := resource, timestamp := now, url := resourceId resource }
  ({ chain := { st.chain with items := st.chain.items ++ [ProvItem.entity entity] },
     currentEntityId := some freshId }, freshId)

/-- Embedding of `recordActivity(label, details)`: fails when there is no
current entity, otherwise pushes an activity whose `usedEntityId` is the
current entity. -/
def recordActivity (st : TrackerState) (freshId : String) (now : Nat)
    (label : String) (details : ActivityDetails) :
    Except String (TrackerState × String) :=
  match st.currentEntityId with
  | none => Except.error "NO_CURRENT_ENTITY"
  | some cur =>
    let activity : ProvActivityRecord :=
      { id := freshId, label := label, details := details,
        usedEntityId := cur, timestamp := now, agentDid := st.chain.agentDid }
    Except.ok
      ({ st with chain :=
          { st.chain with items := st.chain.items ++ [ProvItem.activity activity] } },
       freshId)

/-- Embedding of `seal()` (named `sealChain` here because `seal` is a
Mathlib command): sets the flag and nothing else. -/
def sealChain (st : TrackerState) : TrackerState :=
  { st with chain := { st.chain with sealedFlag := true } }

/-- Embedding of `reset()`. -/
def reset (st : TrackerState) (now : Nat) : TrackerState :=
  { chain := { st.chain with items := [], startedAt := now, sealedFlag := false },
    currentEntityId := none }

/-- Tracker states reachable through the public mutating operations. -/
inductive Reachable : TrackerState → Prop
  | init (agentDid freshId : String) (now : Nat) :
      Reachable (initTracker agentDid freshId now)
  | entity (st : TrackerState) (freshId : String) (now : Nat)
      (resource : JVal) (label : Option String) :
      Reachable st → Reachable (recordEntity st freshId now resource label).1
  | activity (st : TrackerState) (freshId : String) (now : Nat)
      (label : String) (details : ActivityDetails) (st' : TrackerState) (aid : String) :
      Reachable st → recordActivity st freshId now label details = Except.ok (st', aid) →
      Reachable st'
  | sealOp (st : TrackerState) : Reachable st → Reachable (sealChain st)
  | resetOp (st : TrackerState) (now : Nat) : Reachable st → Reachable (reset st now)

/-- The chain invariant: the first item is an entity, the current-entity
pointer names an entity already in the chain, and every activity's
`usedEntityId` names an entity at a strictly earlier position. -/
def ChainInv (st : TrackerState) : Prop :=
  (∀ x, st.chain.items.head? = some x → ∃ e, x = ProvItem.entity e) ∧
  (∀ cur, st.currentEntityId = some cur →
    ∃ (j : Nat) (e : ProvEntitySnapshot),
      st.chain.items[j]? = some (ProvItem.entity e) ∧ e.id = cur) ∧
  (∀ (i : Nat) (a : ProvActivityRecord),
    st.chain.items[i]? = some (ProvItem.activity a) →
    ∃ (j : Nat) (e : ProvEntitySnapshot), j < i ∧
      st.chain.items[j]? = some (ProvItem.entity e) ∧
      e.id = a.usedEntityId)

theorem getElem?_some_lt_length {l : List α} {j : Nat} {y : α}
    (h : l[j]? = some y) : j < l.length := by
  by_contra hc
  rw [List.getElem?_eq_none (Nat.le_of_not_lt hc)] at h
  exact absurd h (by simp)

/-- Every reachable tracker state satisfies the chain invariant. -/
theorem chainInv_reachable (st : TrackerState) (h : Reachable st) : ChainInv st := by
  induction h with
  | init agentDid freshId now =>
    refine ⟨?_, ?_, ?_⟩
    · intro x hx; simp [initTracker] at hx
    · intro cur hcur; simp [initTracker] at hcur
    · intro i a ha; simp [initTracker] at ha
  | entity st freshId now resource label _ ih =>
    obtain ⟨ih1, ih2, ih3⟩ := ih
    refine ⟨?_, ?_, ?_⟩
    · intro x hx
      cases hitems : st.chain.items with
      | nil =>
        simp only [recordEntity, hitems, List.nil_append, List.head?_cons] at hx
        exact ⟨_, (Option.some.inj hx).symm⟩
      | cons y t =>
        simp only [recordEntity, hitems, List.cons_append, List.head?_cons] at hx
        exact ih1 x (by rw [hitems, List.head?_cons, hx])
    · intro cur hcur
      simp only [recordEntity] at hcur
      cases hcur
      refine ⟨st.chain.items.length,
        { id := freshId,
          label := (label.orElse fun _ => extractLabel resource).getD "Resource State",
          value := resource, timestamp := now, url := resourceId resource }, ?_, rfl⟩
      simp only [recordEntity]
      exact List.getElem?_concat_length _ _
    · intro i a ha
      simp only [recordEntity] at ha
      rcases Nat.lt_trichotomy i st.chain.items.length with hlt | heqi | hgt
      · rw [List.getElem?_append_left hlt] at ha
        obtain ⟨j, e, hji, hj, hid⟩ := ih3 i a ha
        refine ⟨j, e, hji, ?_, hid⟩
        simp only [recordEntity]
        rw [List.getElem?_append_left (Nat.lt_trans hji hlt)]
        exact hj
      · rw [heqi, List.getElem?_concat_length] at ha
        exact absurd (Option.some.inj ha) (by simp)
      · rw [List.getElem?_eq_none (by simp; omega)] at ha
        exact absurd ha (by simp)
  | activity st freshId now label details st' aid _ heq ih =>
    obtain ⟨ih1, ih2, ih3⟩ := ih
    cases hcur : st.currentEntityId with
    | none => simp [recordActivity, hcur] at heq
    | some cur =>
      simp only [recordActivity, hcur, Except.ok.injEq, Prod.mk.injEq] at heq
      obtain ⟨hst', -⟩ := heq
      obtain ⟨j0, e0, hj0, hid0⟩ := ih2 cur hcur
      have hj0lt : j0 < st.chain.items.length := getElem?_some_lt_length hj0
      refine ⟨?_, ?_, ?_⟩
      · intro x hx
        rw [← hst'] at hx
        cases hitems : st.chain.items with
        | nil => rw [hitems] at hj0; simp at hj0
        | cons y t =>
          simp only [hitems, List.cons_append, List.head?_cons] at hx
          exact ih1 x (by rw [hitems, List.head?_cons, hx])
      · intro cur' hcur'
        rw [← hst'] at hcur' ⊢
        simp only at hcur' ⊢
        cases hcur'
        refine ⟨j0, e0, ?_, hid0⟩
        rw [List.getElem?_append_left hj0lt]
        exact hj0
      · intro i a ha
        rw [← hst'] at ha ⊢
        simp only at ha ⊢
        rcases Nat.lt_trichotomy i st.chain.items.length with hlt | heqi | hgt
        · rw [List.getElem?_append_left hlt] at ha
          obtain ⟨j, e, hji, hj, hid⟩ := ih3 i a ha
          exact ⟨j, e, hji, by rw [List.getElem?_append_left (Nat.lt_trans hji hlt)]; exact hj, hid⟩
        · rw [heqi, List.getElem?_concat_length] at ha
          injection ha with ha'
          injection ha' with ha''
          subst ha''
          refine ⟨j0, e0, by omega, ?_, hid0⟩
          rw [List.getElem?_append_left hj0lt]
          exact hj0
        · rw [List.getElem?_eq_none (by simp; omega)] at ha
          exact absurd ha (by simp)
  | sealOp st _ ih => exact ih
  | resetOp st now _ ih =>
    refine ⟨?_, ?_, ?_⟩
    · intro x hx; simp [reset] at hx
    · intro cur hcur; simp [reset] at hcur
    · intro i a ha; simp [reset] at ha

/-- C3 (amended, SDK `ProvenanceTracker`): in every reachable tracker
state the first chain item is an entity, every activity's `usedEntityId`
names an entity at a strictly earlier position, and `recordActivity`
without a current entity fails with the NO_CURRENT_ENTITY error.  (The
server-side `ProvenanceService` does not satisfy this; see the
counterexample.) -/
theorem trackerProvenance_invariant (st : TrackerState) (h : Reachable st) :
    (∀ x, st.chain.items.head? = some x → ∃ e, x = ProvItem.entity e) ∧
    (∀ (i : Nat) (a : ProvActivityRecord),
      st.chain.items[i]? = some (ProvItem.activity a) →
      ∃ (j : Nat) (e : ProvEntitySnapshot), j < i ∧
        st.chain.items[j]? = some (ProvItem.entity e) ∧ e.id = a.usedEntityId) ∧
    (∀ (freshId : String) (now : Nat) (label : String) (details : ActivityDetails),
      st.currentEntityId = none →
      recordActivity st freshId now label details =
        Except.error "NO_CURRENT_ENTITY") := by
  obtain ⟨h1, _, h3⟩ := chainInv_reachable st h
  refine ⟨h1, h3, ?_⟩
  intro freshId now label details hnone
  simp [recordActivity, hnone]

/-- Witness for C3's amended theorem: a freshly constructed tracker has no
current entity, so its first `recordActivity` fails with
NO_CURRENT_ENTITY. -/
theorem trackerProvenance_invariant_witness :
    recordActivity (initTracker "did:agent" "urn:uuid:c0" 0) "urn:uuid:a1" 2 "observe"
        ⟨"read", [], "retail", none, none, none, none⟩ =
      Except.error "NO_CURRENT_ENTITY" :=
  (trackerProvenance_invariant (initTracker "did:agent" "urn:uuid:c0" 0)
    (Reachable.init "did:agent" "urn:uuid:c0" 0)).2.2 "urn:uuid:a1" 2 "observe"
    ⟨"read", [], "retail", none, none, none, none⟩ rfl

/-- Input object of the server-side `ProvenanceService.recordActivity`. -/
structure ServerActivityInput where
  label : String
  actionType : String
  targetUrl : String
  method : String
  statusCode : Nat
  duration : Nat
  payload : Option (List (String × JVal))

/-- Embedding of `ProvenanceService.recordActivity` from the server
(`routes/health.ts` companion service, lines 66–117): builds an activity
record whose `usedEntityId` is the activity's own id, appends it to the
last unsealed chain or starts a new chain with it, and stores the chain
(the storage layer appends the chain to the agent's list).  Returns the
stored list, the chain that was stored, and the activity id. -/
def serverRecordActivity (chains : List ProvenanceChain)
    (freshActivityId freshChainId : String) (now : Nat) (agentDid : String)
    (input : ServerActivityInput) :
    List ProvenanceChain × ProvenanceChain × String :=
  let record : ProvActivityRecord :=
    { id := freshActivityId, label := input.label,
      details := { actionType := input.actionType, payload := input.payload.getD [],
                   strategy := "server-recorded", method := some input.method,
                   targetUrl := some input.targetUrl, statusCode := some input.statusCode,
                   duration := some input.duration },
      usedEntityId := freshActivityId, timestamp := now, agentDid := agentDid }
  let newChain : ProvenanceChain :=
    { id := freshChainId, agentDid := agentDid, startedAt := now,
      items := [ProvItem.activity record], sealedFlag := false }
  match chains.getLast? with
  | some last =>
    if last.sealedFlag = false then
      let updated := { last with items := last.items ++ [ProvItem.activity record] }
      (chains.dropLast ++ [updated] ++ [updated], updated, freshActivityId)
    else
      (chains ++ [newChain], newChain, freshActivityId)
  | none => (chains ++ [newChain], newChain, freshActivityId)

/-- C3 counterexample: the server-side `ProvenanceService.recordActivity`
invoked with no existing chains stores a provenance chain whose first
item is an activity (not an entity) and whose `usedEntityId` equals the
activity's own id — the same position, not a strictly earlier entity. -/
theorem serverRecordActivity_counterexample :
    (serverRecordActivity [] "urn:uuid:a1" "urn:uuid:c1" 50 "did:agent"
        ⟨"GET /x", "read", "/x", "GET", 200, 3, none⟩).2.1.items =
      [ProvItem.activity
        { id := "urn:uuid:a1", label := "GET /x",
          details := { actionType := "read", payload := [], strategy := "server-recorded",
                       method := some "GET", targetUrl := some "/x",
                       statusCode := some 200, duration := some 3 },
          usedEntityId := "urn:uuid:a1", timestamp := 50, agentDid := "did:agent" }] :=
  rfl

/-- C5: `seal()` only sets the flag; `recordEntity` and `recordActivity`
never consult it, so a sealed tracker still accepts appends and its items
sequence grows — contradicting the code's own doc comment ("prevent
further modifications"). -/
theorem sealChain_does_not_block_appends (st : TrackerState) (freshId : String)
    (now : Nat) (resource : JVal) (label : Option String) :
    (sealChain st).chain.sealedFlag = true ∧
    (recordEntity (sealChain st) freshId now resource label).1.chain.items =
      st.chain.items ++ [ProvItem.entity
        { id := freshId,
          label := (label.orElse fun _ => extractLabel resource).getD "Resource State",
          value := resource, timestamp := now, url := resourceId resource }] :=
  ⟨rfl, rfl⟩

end Prov


namespace Jwt

/-! Embedding of `verifyJWT` from `crypto.ts` lines 49–74.  The HMAC
builtin and the `JSON.parse(base64urlDecode(...))` step (whose failures
the source catches, returning null) are parameters; `Date` is `now`.
`crypto.timingSafeEqual` throws when the two buffers have different byte
lengths, and that call is not inside the try/catch — the model surfaces
it as `Except.error`. -/

structure JWTPayload where
  sub : String
  iat : Nat
  exp : Option Nat
  deriving Repr, DecidableEq

/-- Byte length of the UTF-8 encoding, modelling `Buffer.from(s).length`. -/
def byteLen (s : String) : Nat :=
  (s.data.map Char.utf8Size).sum

/-- Model of `String.prototype.split(".")`. -/
def splitDots : List Char → List (List Char)
  | [] => [[]]
  | c :: rest =>
    match splitDots rest with
    | [] => [[]]
    | h :: t => if c = '.' then [] :: h :: t else (c :: h) :: t

/-- Embedding of `verifyJWT(token)`.  `hmacB64 data` models
`createHmac("sha256", JWT_SECRET).update(data).digest("base64url")`;
`parsePayload` models `JSON.parse(base64urlDecode(payloadB64))` wrapped
in the source's try/catch (`none` = the catch branch).  The
`Except.error` case is the uncaught `ERR_CRYPTO_TIMING_SAFE_EQUAL_LENGTH`
exception. -/
def verifyJWT (hmacB64 : String → String) (parsePayload : String → Option JWTPayload)
    (now : Nat) (token : String) : Except String (Option JWTPayload) :=
  match (splitDots token.data).map (fun l => String.mk l) with
  | [headerB64, payloadB64, signature] =>
    let expected := hmacB64 (headerB64 ++ "." ++ payloadB64)
    if byteLen signature ≠ byteLen expected then
      Except.error "ERR_CRYPTO_TIMING_SAFE_EQUAL_LENGTH"
    else if signature ≠ expected then
      Except.ok none
    else
      match parsePayload payloadB64 with
      | none => Except.ok none
      | some payload =>
        match payload.exp with
        | some e => if e ≠ 0 ∧ e < now then Except.ok none else Except.ok (some payload)
        | none => Except.ok (some payload)
  | _ => Except.ok none

/-- C8: `verifyJWT` is not total.  An HMAC-SHA256 base64url digest is
always 43 bytes, so for any token whose third segment is not 43 bytes —
such as "a.b.c" — `crypto.timingSafeEqual` receives buffers of different
lengths and throws, escaping `verifyJWT` instead of yielding null. -/
theorem verifyJWT_throws_on_short_signature (hmacB64 : String → String)
    (parsePayload : String → Option JWTPayload) (now : Nat)
    (hlen : ∀ s, byteLen (hmacB64 s) = 43) :
    verifyJWT hmacB64 parsePayload now "a.b.c" =
      Except.error "ERR_CRYPTO_TIMING_SAFE_EQUAL_LENGTH" := by
  have hsplit : (splitDots "a.b.c".data).map (fun l => String.mk l) = ["a", "b", "c"] := by
    decide
  unfold verifyJWT
  rw [hsplit]
  dsimp only
  rw [if_pos (by rw [hlen]; decide)]

/-- Witness for C8's theorem with a concrete 43-byte HMAC model. -/
theorem verifyJWT_throws_on_short_signature_witness :
    verifyJWT (fun _ => "0000000000000000000000000000000000000000000") (fun _ => none) 0
        "a.b.c" = Except.error "ERR_CRYPTO_TIMING_SAFE_EQUAL_LENGTH" :=
  verifyJWT_throws_on_short_signature (fun _ => "0000000000000000000000000000000000000000000")
    (fun _ => none) 0 (fun _ =>
      show byteLen "0000000000000000000000000000000000000000000" = 43 by decide)

end Jwt

namespace Fed

/-! Embedding of `FederationService` from
`packages/server/src/services/federation.ts` (lines 66–281): the result
assembly of `executeQuery`, `resolveDataSource`, `queryDataSource`, and
the simulated `DATA_SOURCES`.  Rows are association lists of column name
to `JVal`; JS numbers are `Rat`.  The regex-driven `parseQuery` /
`detectAdditionalSources` run before the embedded pipeline, so the
pipeline takes the `ParsedQuery` and the detected additional sources as
inputs.  Wall-clock fields (`executionTime`, `latency`, timestamps) and
the result uuid are elided. -/

/-- Substring test: `containsSub needle hay` models
`hay.includes(needle)`. -/
def containsSub (needle : List Char) : List Char → Bool
  | [] => needle.isEmpty
  | c :: t => needle.isPrefixOf (c :: t) || containsSub needle t

/-- Decimal rendering of a JS number whose value is a finite decimal
(every literal in `DATA_SOURCES` is one); models `String(number)` for
such values.  `fuel` bounds the fractional digits. -/
def fracDigits (fuel : Nat) (r : Rat) : List Char :=
  match fuel with
  | 0 => []
  | fuel + 1 =>
    if r = 0 then []
    else
      let r10 := r * 10
      let d := r10.floor
      (Char.ofNat (48 + d.toNat)) :: fracDigits fuel (r10 - d)

/-- Model of `String(q)` for a JS number `q`. -/
def ratToJsString (q : Rat) : String :=
  if q < 0 then "-" ++ ratToJsString (-q)
  else
    let ip := q.floor.toNat
    let fd := fracDigits 20 (q - q.floor)
    if fd.isEmpty then toString ip
    else toString ip ++ "." ++ String.mk fd
  termination_by (if q < 0 then 1 else 0)
  decreasing_by
    simp_all
    linarith

/-- Parse of a decimal literal, modelling `Number(string)` on the simple
grammar `[+-]? digits [. digits]?` (with the JS quirk that an
empty/whitespace string is 0); anything else is NaN (`none`). -/
def parseJsNumber (s : String) : Option Rat :=
  let chars := s.data.filter (fun c => c ≠ ' ')
  if chars.isEmpty then some 0
  else
    let (sign, rest) : Rat × List Char :=
      match chars with
      | '-' :: r => (-1, r)
      | '+' :: r => (1, r)
      | r => (1, r)
    let isDigit : Char → Bool := fun c => '0' ≤ c && c ≤ '9'
    let ds := rest.takeWhile isDigit
    let tail := rest.dropWhile isDigit
    let digitsVal : List Char → Rat := fun l =>
      l.foldl (fun acc c => acc * 10 + ((c.toNat - 48 : Nat) : Rat)) 0
    match tail with
    | [] => if ds.isEmpty then none else some (sign * digitsVal ds)
    | '.' :: fs =>
      if fs.all isDigit ∧ ¬(ds.isEmpty ∧ fs.isEmpty) then
        some (sign * (digitsVal ds + digitsVal fs / (10 : Rat) ^ fs.length))
      else none
    | _ => none

/-- Model of `Number(value)`; `none` is NaN.  (Objects and arrays coerce
through `toString`, which never occurs in the simulated data.) -/
def jsToNumber : JVal → Option Rat
  | JVal.num q => some q
  | JVal.bool b => some (if b then 1 else 0)
  | JVal.str s => parseJsNumber s
  | JVal.null => some 0
  | _ => none

/-- Model of `String(value)` for the primitive values occurring in rows. -/
def jsToString : JVal → String
  | JVal.str s => s
  | JVal.bool b => if b then "true" else "false"
  | JVal.num q => ratToJsString q
  | JVal.null => "null"
  | JVal.arr _ => ""
  | JVal.obj _ => "[object Object]"

/-- Model of `String(v)` where `v` may be `undefined`. -/
def jsToStringOpt : Option JVal → String
  | none => "undefined"
  | some v => jsToString v

/-- ASCII lower-casing, modelling `toLowerCase()` on the data involved. -/
def lowerStr (s : String) : String :=
  String.mk (s.data.map Char.toLower)

/-- The `string | number` literal attached to a parsed WHERE clause. -/
inductive WhereVal where
  | s (v : String)
  | n (v : Rat)

def whereValStr : WhereVal → String
  | WhereVal.s v => v
  | WhereVal.n q => ratToJsString q

def whereValNum : WhereVal → Option Rat
  | WhereVal.s v => parseJsNumber v
  | WhereVal.n q => some q

structure WhereClause where
  field : String
  op : String
  value : WhereVal

structure ParsedQuery where
  select : List String
  fromTable : String
  whereClauses : List WhereClause
  limit : Nat
  orderBy : Option String
  orderDir : Option String

/-- Comparison on JS numbers where NaN (`none`) compares false. -/
def optLt (a b : Option Rat) : Bool :=
  match a, b with
  | some x, some y => decide (x < y)
  | _, _ => false

def optLe (a b : Option Rat) : Bool :=
  match a, b with
  | some x, some y => decide (x ≤ y)
  | _, _ => false

end Fed

namespace Fed

/-- The simulated data sources (federation.ts lines 31–64). -/
def DATA_SOURCES : List (String × List (List (String × JVal))) :=
  [("analytics",
    [[("user_id", JVal.num 101), ("total_spend", JVal.num 540.2), ("last_login", JVal.str "2024-05-01"), ("region", JVal.str "US-West"), ("segment", JVal.str "premium")],
     [("user_id", JVal.num 204), ("total_spend", JVal.num 1200.0), ("last_login", JVal.str "2024-04-28"), ("region", JVal.str "EU-West"), ("segment", JVal.str "enterprise")],
     [("user_id", JVal.num 305), ("total_spend", JVal.num 89.5), ("last_login", JVal.str "2024-05-03"), ("region", JVal.str "US-East"), ("segment", JVal.str "basic")],
     [("user_id", JVal.num 412), ("total_spend", JVal.num 3200.0), ("last_login", JVal.str "2024-04-15"), ("region", JVal.str "APAC"), ("segment", JVal.str "enterprise")],
     [("user_id", JVal.num 567), ("total_spend", JVal.num 420.75), ("last_login", JVal.str "2024-05-02"), ("region", JVal.str "US-West"), ("segment", JVal.str "premium")],
     [("user_id", JVal.num 623), ("total_spend", JVal.num 15.0), ("last_login", JVal.str "2024-03-22"), ("region", JVal.str "EU-East"), ("segment", JVal.str "basic")],
     [("user_id", JVal.num 789), ("total_spend", JVal.num 890.3), ("last_login", JVal.str "2024-04-30"), ("region", JVal.str "US-East"), ("segment", JVal.str "premium")],
     [("user_id", JVal.num 891), ("total_spend", JVal.num 5600.0), ("last_login", JVal.str "2024-05-01"), ("region", JVal.str "APAC"), ("segment", JVal.str "enterprise")]]),
   ("sales",
    [[("product_id", JVal.str "GPU-H100"), ("revenue", JVal.num 35000), ("units_sold", JVal.num 10), ("quarter", JVal.str "Q2-2024"), ("category", JVal.str "hardware")],
     [("product_id", JVal.str "GPU-A100"), ("revenue", JVal.num 22000), ("units_sold", JVal.num 15), ("quarter", JVal.str "Q2-2024"), ("category", JVal.str "hardware")],
     [("product_id", JVal.str "SSD-4TB"), ("revenue", JVal.num 8500), ("units_sold", JVal.num 50), ("quarter", JVal.str "Q2-2024"), ("category", JVal.str "storage")],
     [("product_id", JVal.str "RAM-128G"), ("revenue", JVal.num 12000), ("units_sold", JVal.num 30), ("quarter", JVal.str "Q2-2024"), ("category", JVal.str "memory")],
     [("product_id", JVal.str "CPU-EPYC"), ("revenue", JVal.num 45000), ("units_sold", JVal.num 5), ("quarter", JVal.str "Q1-2024"), ("category", JVal.str "compute")],
     [("product_id", JVal.str "NET-100G"), ("revenue", JVal.num 6000), ("units_sold", JVal.num 20), ("quarter", JVal.str "Q1-2024"), ("category", JVal.str "networking")]]),
   ("inventory",
    [[("sku", JVal.str "GPU-H100"), ("stock", JVal.num 12), ("warehouse", JVal.str "US-West-1"), ("reorder_point", JVal.num 5), ("unit_cost", JVal.num 3500)],
     [("sku", JVal.str "GPU-A100"), ("stock", JVal.num 25), ("warehouse", JVal.str "US-East-1"), ("reorder_point", JVal.num 10), ("unit_cost", JVal.num 1500)],
     [("sku", JVal.str "SSD-4TB"), ("stock", JVal.num 150), ("warehouse", JVal.str "EU-Central"), ("reorder_point", JVal.num 50), ("unit_cost", JVal.num 170)],
     [("sku", JVal.str "RAM-128G"), ("stock", JVal.num 80), ("warehouse", JVal.str "US-West-1"), ("reorder_point", JVal.num 20), ("unit_cost", JVal.num 400)],
     [("sku", JVal.str "CPU-EPYC"), ("stock", JVal.num 3), ("warehouse", JVal.str "US-East-1"), ("reorder_point", JVal.num 2), ("unit_cost", JVal.num 9000)]]),
   ("telemetry",
    [[("learner_id", JVal.str "L001"), ("course", JVal.str "Kubernetes 201"), ("score", JVal.num 0.92), ("completed", JVal.bool true), ("hours", JVal.num 12)],
     [("learner_id", JVal.str "L002"), ("course", JVal.str "Python ML Foundations"), ("score", JVal.num 0.67), ("completed", JVal.bool false), ("hours", JVal.num 8)],
     [("learner_id", JVal.str "L003"), ("course", JVal.str "Data Engineering"), ("score", JVal.num 0.85), ("completed", JVal.bool true), ("hours", JVal.num 16)],
     [("learner_id", JVal.str "L004"), ("course", JVal.str "Cloud Architecture"), ("score", JVal.num 0.78), ("completed", JVal.bool true), ("hours", JVal.num 20)],
     [("learner_id", JVal.str "L005"), ("course", JVal.str "Kubernetes 201"), ("score", JVal.num 0.95), ("completed", JVal.bool true), ("hours", JVal.num 10)]])]

/-- One WHERE clause applied to a row (the `switch` in `queryDataSource`);
an absent field makes the clause pass ("skip unknown fields"). -/
def matchesClause (item : List (String × JVal)) (clause : WhereClause) : Bool :=
  match lookupKey clause.field item with
  | none => true
  | some value =>
    match clause.op with
    | "=" => jsToString value == whereValStr clause.value
    | "!=" => jsToString value != whereValStr clause.value
    | ">" => optLt (whereValNum clause.value) (jsToNumber value)
    | ">=" => optLe (whereValNum clause.value) (jsToNumber value)
    | "<" => optLt (jsToNumber value) (whereValNum clause.value)
    | "<=" => optLe (jsToNumber value) (whereValNum clause.value)
    | "LIKE" =>
      containsSub ((lowerStr (whereValStr clause.value)).data.filter (fun c => c ≠ '%'))
        (lowerStr (jsToString value)).data
    | _ => true

/-- The ORDER BY comparator of `queryDataSource` as a boolean `le`
(the JS comparator returns `(va - vb) * dir` for two numbers, otherwise
`localeCompare` of the stringified values, modelled as lexicographic
string order). -/
def rowLe (orderBy : String) (dir : Int) (a b : List (String × JVal)) : Bool :=
  let va := lookupKey orderBy a
  let vb := lookupKey orderBy b
  match va, vb with
  | some (JVal.num x), some (JVal.num y) =>
    if dir = -1 then decide (y ≤ x) else decide (x ≤ y)
  | _, _ =>
    if dir = -1 then decide (jsToStringOpt vb ≤ jsToStringOpt va)
    else decide (jsToStringOpt va ≤ jsToStringOpt vb)

/-- Model of `field.replace(/^\\w+\\./, "")`: strip one leading
word-characters-plus-dot prefix. -/
def stripTableQualifier (f : String) : String :=
  let isWord : Char → Bool := fun c =>
    ('a' ≤ c && c ≤ 'z') || ('A' ≤ c && c ≤ 'Z') || ('0' ≤ c && c ≤ '9') || c = '_'
  let pre := f.data.takeWhile isWord
  let rest := f.data.dropWhile isWord
  match rest with
  | '.' :: tail => if pre.isEmpty then f else String.mk tail
  | _ => f

/-- Embedding of `queryDataSource(sourceName, parsed)`: WHERE filter,
ORDER BY sort, SELECT projection, LIMIT. -/
def queryDataSource (sourceName : String) (parsed : ParsedQuery) :
    List (List (String × JVal)) :=
  let data := (lookupKey sourceName DATA_SOURCES).getD []
  let filtered := data.filter (fun item => parsed.whereClauses.all (matchesClause item))
  let sorted :=
    match parsed.orderBy with
    | some ob =>
      let dir : Int := if parsed.orderDir = some "DESC" then -1 else 1
      filtered.mergeSort (rowLe ob dir)
    | none => filtered
  let projected :=
    if parsed.select.contains "*" then sorted
    else
      sorted.map (fun item =>
        parsed.select.foldl (fun proj field =>
          let cleanField := stripTableQualifier field
          match lookupKey cleanField item with
          | some v => proj ++ [(cleanField, v)]
          | none => proj) [])
  projected.take parsed.limit

/-- Embedding of `resolveDataSource(tableName)`: keyword matching on the
lower-cased, `[a-z_]`-filtered table name. -/
def resolveDataSource (tableName : String) : String :=
  let name := String.mk ((lowerStr tableName).data.filter
    (fun c => ('a' ≤ c && c ≤ 'z') || c = '_'))
  if containsSub "user".data name.data || containsSub "analytics".data name.data ||
      containsSub "spend".data name.data then "analytics"
  else if containsSub "sale".data name.data || containsSub "revenue".data name.data ||
      containsSub "product".data name.data then "sales"
  else if containsSub "inventory".data name.data || containsSub "stock".data name.data ||
      containsSub "warehouse".data name.data then "inventory"
  else if containsSub "learn".data name.data || containsSub "telemetry".data name.data ||
      containsSub "course".data name.data then "telemetry"
  else "analytics"

structure SourceResult where
  endpoint : String
  itemCount : Nat

structure CzeroResultSet where
  items : List (List (String × JVal))
  totalResults : Nat
  sources : List SourceResult

/-- Embedding of the body of `executeQuery` after parsing (federation.ts
lines 86–137): query the resolved target source, add the additional
sources detected from JOIN/UNION (each trimmed to the limit), merge in
plan order, apply the final limit, and report the per-source results. -/
def executeQueryCore (parsed : ParsedQuery) (additional : List String) :
    CzeroResultSet :=
  let targetSource := resolveDataSource parsed.fromTable
  let sourceResults : List (String × List (List (String × JVal))) :=
    (targetSource, queryDataSource targetSource parsed) ::
    (additional.filter (fun src => src ≠ targetSource)).map
      (fun src => (src, ((lookupKey src DATA_SOURCES).getD []).take parsed.limit))
  let mergedItems := sourceResults.flatMap (fun sr => sr.2)
  let finalItems := mergedItems.take parsed.limit
  { items := finalItems,
    totalResults := mergedItems.length,
    sources := sourceResults.map (fun sr => ⟨sr.1, sr.2.length⟩) }

/-- C4 (amended): every completed federated query returns at most
`limit` items, and every entry of the result's sources list names a
source in the query plan (the resolved target or a detected additional
source); the rows themselves are returned as-is, without per-row
provenance. -/
theorem executeQuery_limit_and_plan (parsed : ParsedQuery) (additional : List String) :
    (executeQueryCore parsed additional).items.length ≤ parsed.limit ∧
    ∀ sr ∈ (executeQueryCore parsed additional).sources,
      sr.endpoint = resolveDataSource parsed.fromTable ∨ sr.endpoint ∈ additional := by
  constructor
  · simp only [executeQueryCore]
    exact List.length_take_le _ _
  · intro sr hsr
    simp only [executeQueryCore, List.map_cons, List.mem_cons, List.mem_map] at hsr
    rcases hsr with rfl | ⟨p, ⟨src, hsrc, rfl⟩, rfl⟩
    · exact Or.inl rfl
    · exact Or.inr (List.mem_of_mem_filter hsrc)

/-- Witness for C4's amended theorem: a LIMIT-3 query over analytics with
sales as an additional JOIN source. -/
theorem executeQuery_limit_and_plan_witness :
    (executeQueryCore ⟨["*"], "analytics", [], 3, none, none⟩ ["sales"]).items.length ≤ 3 ∧
    ((⟨"sales", 3⟩ : SourceResult).endpoint = resolveDataSource "analytics" ∨
      (⟨"sales", 3⟩ : SourceResult).endpoint ∈ ["sales"]) := by
  constructor
  · exact (executeQuery_limit_and_plan ⟨["*"], "analytics", [], 3, none, none⟩ ["sales"]).1
  · refine (executeQuery_limit_and_plan ⟨["*"], "analytics", [], 3, none, none⟩ ["sales"]).2
      ⟨"sales", 3⟩ ?_
    rw [show (executeQueryCore ⟨["*"], "analytics", [], 3, none, none⟩ ["sales"]).sources =
      [⟨"analytics", 3⟩, ⟨"sales", 3⟩] from rfl]
    exact List.mem_cons_of_mem _ (List.mem_cons_self _ _)

/-- C4 counterexample: a completed query over the analytics source
returns eight rows, and the first returned row carries no
`czero:provenance` (nor `provenance`) attribute at all — rows are not
stamped with a `provenance.sourceNode`. -/
theorem executeQuery_rows_carry_no_provenance :
    (executeQueryCore ⟨["*"], "analytics", [], 100, none, none⟩ []).items.length = 8 ∧
    ((executeQueryCore ⟨["*"], "analytics", [], 100, none, none⟩ []).items.head?.map
      (fun row => lookupKey "czero:provenance" row)) = some none ∧
    ((executeQueryCore ⟨["*"], "analytics", [], 100, none, none⟩ []).items.head?.map
      (fun row => lookupKey "provenance" row)) = some none :=
  ⟨rfl, rfl, rfl⟩


end Fed
